import Mathlib

/-!
Verification of the streak/notification core of the `streaks.json` habit
tracker, shallowly embedded in Lean 4.

Embedded source files:
- `src/scripts/daemons.ts` : the breakday reconciler sweep (`setBreakdays`).
- `src/scripts/notifications/notifications.ts` : the decision engine
  (`sendReminders`, `sendCongratulation`) and the settle-all dispatcher.
- the `User.addCalendar` factory from the `User` database class.

Day statuses are the three strings `"success" | "fail" | "breakday"`; the
`days` map of a calendar is embedded as an association list from date string
to status, with JavaScript `Map.get` / `Map.set` semantics (lookup of the
first matching key, in-place overwrite of an existing key).

Helpers that live in repository files absent from the provided sources
(`utils.ts` and the `Calendar` class method `countStreaks`) are modelled
from the spec and say so in their doc comments.
-/

namespace Streaks

/-- The three day statuses stored in the `days` map of a calendar. -/
inductive DayStatus where
  | success
  | fail
  | breakday
deriving DecidableEq, Repr

/-- The per-calendar day-state store: date string to status, JS `Map`
embedded as an association list. -/
abbrev DayMap := List (String × DayStatus)

/-- JS `days.get(date)`: the status recorded for `date`, if any. -/
def getDay (m : DayMap) (d : String) : Option DayStatus :=
  match m with
  | [] => none
  | (k, v) :: rest => if k = d then some v else getDay rest d

/-- JS `days.set(date, st)`: overwrite the entry for `date`, or add it. -/
def setDay (m : DayMap) (d : String) (st : DayStatus) : DayMap :=
  match m with
  | [] => [(d, st)]
  | (k, v) :: rest => if k = d then (d, st) :: rest else (k, v) :: setDay rest d st

/-- Per-calendar notification opt-in flags (`notifications` sub-document). -/
structure CalNotifications where
  reminders : Bool
  congrats : Bool
deriving DecidableEq, Repr

/-- A calendar as the daemon and decision engine see it: display name,
7-slot weekday agenda (`true` = task expected, index 0 = Sunday), the
day-state map, and optional notification flags (the code reads them through
optional chaining). -/
structure Calendar where
  name : String
  agenda : List Bool
  days : DayMap
  notifications : Option CalNotifications
deriving DecidableEq, Repr

/-- JS `calendar.agenda[weekday]` under truthiness: out-of-range access
yields `undefined`, which is falsy. -/
def agendaAt (c : Calendar) (weekday : Nat) : Bool :=
  c.agenda.getD weekday false

/-!
## Breakday Reconciler (`setBreakdays`, daemons.ts lines 16-49)

Per calendar, with `today` and `weekday` computed from the current date:
if the agenda does not expect today (`!agenda[weekday]`) and the stored
status for today differs from `"success"` (including absent), write
`"breakday"`; otherwise leave the calendar alone.
-/

/-- The per-calendar body of `setBreakdays` (daemons.ts lines 24-38),
acting on the day-state store. -/
def breakdayStep (today : String) (weekday : Nat) (c : Calendar) : Calendar :=
  if !(agendaAt c weekday) then
    if getDay c.days today ≠ some DayStatus.success then
      { c with days := setDay c.days today DayStatus.breakday }
    else c
  else c

/-- One full reconciler sweep over the list of calendars, `today` and
`weekday` computed once for the run. -/
def sweepBreakdays (today : String) (weekday : Nat) (cs : List Calendar) : List Calendar :=
  cs.map (breakdayStep today weekday)

/-!
Lemmas about the JS-`Map` embedding.
-/

theorem getDay_setDay_self (m : DayMap) (d : String) (st : DayStatus) :
    getDay (setDay m d st) d = some st := by
  induction m with
  | nil => simp [setDay, getDay]
  | cons hd rest ih =>
    obtain ⟨k, v⟩ := hd
    by_cases hk : k = d
    · simp [setDay, getDay, hk]
    · simp [setDay, getDay, hk, ih]

theorem getDay_setDay_other (m : DayMap) (d d' : String) (st : DayStatus)
    (hne : d' ≠ d) : getDay (setDay m d st) d' = getDay m d' := by
  induction m with
  | nil => simp [setDay, getDay, hne, Ne.symm hne]
  | cons hd rest ih =>
    obtain ⟨k, v⟩ := hd
    by_cases hk : k = d
    · subst hk
      simp [setDay, getDay, Ne.symm hne]
    · by_cases hk' : k = d'
      · subst hk'
        simp [setDay, getDay, hk, hne, ih]
      · simp [setDay, getDay, hk, hk', ih]

theorem setDay_setDay_same (m : DayMap) (d : String) (st st' : DayStatus) :
    setDay (setDay m d st) d st' = setDay m d st' := by
  induction m with
  | nil => simp [setDay]
  | cons hd rest ih =>
    obtain ⟨k, v⟩ := hd
    by_cases hk : k = d
    · simp [setDay, hk]
    · simp [setDay, hk, ih]

theorem breakdayStep_idem (today : String) (weekday : Nat) (c : Calendar) :
    breakdayStep today weekday (breakdayStep today weekday c) =
      breakdayStep today weekday c := by
  unfold breakdayStep
  by_cases ha : agendaAt c weekday
  · simp [ha]
  · by_cases hs : getDay c.days today = some DayStatus.success
    · simp [ha, hs, agendaAt]
    · simp only [ha, Bool.not_false, if_true, hs, ne_eq, not_false_iff, if_true]
      have ha' : agendaAt { c with days := setDay c.days today DayStatus.breakday } weekday
          = agendaAt c weekday := rfl
      simp only [ha', ha, Bool.not_false, if_true]
      have hget : getDay (setDay c.days today DayStatus.breakday) today
          = some DayStatus.breakday := getDay_setDay_self _ _ _
      simp [hget, setDay_setDay_same]

/-!
## Calendar creation (`User.addCalendar`)

The factory builds the new calendar document with
`agenda: [1, 1, 1, 1, 1, 1, 1]`, `days: {}` and
`notifications: {reminders: true, congrats: true}`. The agenda entries are
read through JS truthiness, so the seven `1` values embed as seven `true`.
-/

/-- The calendar document created by `User.addCalendar(name)`. -/
def addCalendar (name : String) : Calendar :=
  { name := name
    agenda := [true, true, true, true, true, true, true]
    days := []
    notifications := some { reminders := true, congrats := true } }

/-!
## Promise-resolution model for the reconciler sweep (`setBreakdays`)

`setBreakdays` wraps fallible store operations: `getCalendars()` may
reject, and each per-calendar `user.setDayState(...)` may reject. A
rejected promise is embedded as `Except.error msg`. The JS combinators
`.catch` and `Promise.allSettled` are embedded with their documented
semantics.
-/

/-- JS `.catch(h)`: a fulfilled promise passes through, a rejected one is
replaced by the result of the handler. -/
def promiseCatch {α : Type} (p : Except String α) (h : String → Except String α) :
    Except String α :=
  match p with
  | .ok a => .ok a
  | .error e => h e

/-- The settled outcome of one promise, as reported by
`Promise.allSettled`. -/
inductive Settled (α : Type) where
  | fulfilled (value : α)
  | rejected (reason : String)
deriving DecidableEq, Repr

/-- The settled outcome of a single promise. -/
def settleOne {α : Type} (p : Except String α) : Settled α :=
  match p with
  | .ok a => .fulfilled a
  | .error e => .rejected e

/-- JS `Promise.allSettled`: every input promise is settled, none is
dropped, and the combinator itself never rejects. -/
def allSettled {α : Type} (ps : List (Except String α)) : List (Settled α) :=
  ps.map settleOne

/-- The promise `Promise.allSettled(ps)` itself: it always fulfills, with
the list of settled outcomes. -/
def batchPromise {α : Type} (ps : List (Except String α)) :
    Except String (List (Settled α)) :=
  .ok (allSettled ps)

/-- The per-calendar promise inside `setBreakdays` (daemons.ts lines
22-39): on a non-agenda day with stored status other than success it runs
the fallible update, whose rejection is caught (logged) and followed by
`finally(resolve)`; on the other branches it resolves at once. `upd` is the
outcome of `user.setDayState(...)` for this calendar. -/
def calendarSweepPromise (today : String) (weekday : Nat) (c : Calendar)
    (upd : Except String Unit) : Except String Unit :=
  if !(agendaAt c weekday) then
    if getDay c.days today ≠ some DayStatus.success then
      promiseCatch upd (fun _ => .ok ())
    else .ok ()
  else .ok ()

/-- The resolution of the promise returned by `setBreakdays` (daemons.ts
lines 16-49): the listing promise feeds the per-calendar promises into
`Promise.allSettled`, whose completion resolves the outer promise; a
rejected listing is caught (logged) and the outer promise resolves anyway.
`listing` is the outcome of `getCalendars()` and `upd` gives the outcome of
the store update attempted for each calendar. -/
def setBreakdaysResolution (today : String) (weekday : Nat)
    (listing : Except String (List Calendar)) (upd : Calendar → Except String Unit) :
    Except String Unit :=
  promiseCatch
    (listing.bind fun cals =>
      (batchPromise (cals.map fun c => calendarSweepPromise today weekday c (upd c))).map
        fun _ => ())
    (fun _ => .ok ())

/-!
## Notification dispatcher

Both `sendNotifications` (daemons.ts lines 83-86) and `sendReminders`
(notifications.ts lines 69-72) end with
`await Promise.allSettled(notificationsPromises).then(() => { if (matrix) matrix.disconnect() })`.
The batch is embedded as an event trace: one settle event per send, in
index order, followed by the disconnect when the channel was connected.
-/

/-- An observable event of one dispatcher batch. -/
inductive DispatchEvent where
  | settled (index : Nat) (ok : Bool)
  | disconnected
deriving DecidableEq, Repr

/-- The event trace of one dispatcher batch: `Promise.allSettled` settles
every send, then `matrix.disconnect()` runs when the channel is up. -/
def dispatchBatch (matrixOn : Bool) (sends : List (Except String Unit)) :
    List DispatchEvent :=
  (sends.enum.map fun p => DispatchEvent.settled p.1 p.2.isOk) ++
    (if matrixOn then [DispatchEvent.disconnected] else [])

/-!
## Reminder / congratulation decision engine (notifications.ts)

User notification settings mirror the fields the engine reads:
`matrix.room_id` (the empty string embeds the falsy missing value),
`matrix.start_date` / `matrix.end_date` (optional times of day, embedded
as minutes), and the `streaks_done` sub-document.
-/

/-- Modelled from the spec: the `hour_between` helper of
`src/scripts/utils.ts` is not among the provided sources. Per the spec the
window given by `start_date` and `end_date` (wrapping midnight when
`end_date < start_date`) must contain the current time of day. Times of
day are embedded as minutes since midnight. -/
def hour_between (startMin endMin now : Nat) : Bool :=
  if endMin < startMin then
    decide (startMin ≤ now) || decide (now ≤ endMin)
  else
    decide (startMin ≤ now) && decide (now ≤ endMin)

/-- The `notifications.matrix` sub-document of a user. -/
structure MatrixSettings where
  room_id : String
  start_date : Option Nat
  end_date : Option Nat
deriving DecidableEq, Repr

/-- The `notifications.streaks_done` sub-document of a user. -/
structure StreaksDoneSettings where
  enabled : Bool
  channel : String
  sent_today : Bool
deriving DecidableEq, Repr

/-- The `notifications` document of a user. -/
structure UserNotifications where
  matrix : MatrixSettings
  streaks_done : StreaksDoneSettings
deriving DecidableEq, Repr

/-- A user as the decision engine sees one: the optional notification
settings and the calendars returned by `getCalendars()`. -/
structure User where
  notifications : Option UserNotifications
  calendars : List Calendar
deriving DecidableEq, Repr

/-- Ambient data of one engine run: whether the matrix service is enabled
and connected, the date string `moment().format(..)` evaluates to, and the
current time of day in minutes. -/
structure SweepConfig where
  matrixOn : Bool
  today : String
  now : Nat
deriving DecidableEq, Repr

/-- One entry of the `summary` array built for the reminder message. -/
structure SummaryEntry where
  name : String
  fail : Bool
  streaks : Nat
deriving DecidableEq, Repr

/-- A notification handed to the channel. -/
inductive Notification where
  | reminder (room : String) (sum : List SummaryEntry)
  | streaksDone (room : String)
  | congratulation (room : String) (calName : String)
deriving DecidableEq, Repr

/-- Whether a notification is a fail reminder. -/
def Notification.isReminder : Notification → Bool
  | .reminder _ _ => true
  | _ => false

/-- Whether a notification is the all-done congratulation. -/
def Notification.isStreaksDone : Notification → Bool
  | .streaksDone _ => true
  | _ => false

/-- JS `calendars[c].notifications?.reminders` under truthiness. -/
def remindersOn (c : Calendar) : Bool :=
  match c.notifications with
  | some n => n.reminders
  | none => false

/-- The failing test of notifications.ts lines 39-45: today is failing for
a calendar when its stored status is absent or equals fail. -/
def calFails (today : String) (c : Calendar) : Bool :=
  match getDay c.days today with
  | some s => decide (s = DayStatus.fail)
  | none => true

/-- The summary entry pushed for one reminder-eligible calendar
(notifications.ts lines 41-44). `streakOf` stands for the
`Calendar.countStreaks` method the loop calls. -/
def summaryEntry (today : String) (streakOf : Calendar → Nat) (c : Calendar) :
    SummaryEntry :=
  { name := c.name, fail := calFails today c, streaks := streakOf c }

/-- The store update `user.setStreaksDoneSentToday(b)`, applied to a user
whose settings are `ns`. -/
def setSentToday (u : User) (ns : UserNotifications) (b : Bool) : User :=
  { u with
    notifications := some { ns with streaks_done := { ns.streaks_done with sent_today := b } } }

/-- The per-user body of the `sendReminders` loop (notifications.ts lines
28-67): build the summary over reminder-eligible calendars, then either
dispatch a window-gated fail reminder and clear `sent_today`, or fire the
all-done congratulation and set `sent_today`. Returns the updated user
together with the notifications pushed for this user. -/
def processUser (cfg : SweepConfig) (streakOf : Calendar → Nat) (u : User) :
    User × List Notification :=
  match u.notifications with
  | none => (u, [])
  | some ns =>
    let eligible := u.calendars.filter remindersOn
    let sum := eligible.map (summaryEntry cfg.today streakOf)
    let has_fails := eligible.any (calFails cfg.today)
    if has_fails then
      let msgs :=
        if cfg.matrixOn && ns.matrix.room_id != "" &&
            hour_between (ns.matrix.start_date.getD 0) (ns.matrix.end_date.getD 1440)
              cfg.now then
          [Notification.reminder ns.matrix.room_id sum]
        else []
      let u' := if ns.streaks_done.sent_today then setSentToday u ns false else u
      (u', msgs)
    else if ns.streaks_done.enabled && ns.streaks_done.channel != "" &&
        !ns.streaks_done.sent_today then
      let msgs :=
        if cfg.matrixOn && ns.streaks_done.channel == "matrix" &&
            ns.matrix.room_id != "" then
          [Notification.streaksDone ns.matrix.room_id]
        else []
      let u' := setSentToday u ns true
      (u', msgs)
    else (u, [])

/-- The full `sendReminders` sweep: every user is processed independently;
the updated users and all pushed notifications are collected. -/
def sendReminders (cfg : SweepConfig) (streakOf : Calendar → Nat)
    (users : List User) : List User × List Notification :=
  (users.map fun u => (processUser cfg streakOf u).1,
   users.flatMap fun u => (processUser cfg streakOf u).2)

/-- The early-return guard of `sendCongratulation` (notifications.ts lines
94-96): the stored status for today is present and differs from success. -/
def congratGuardBlocks (today : String) (cal : Calendar) : Bool :=
  match getDay cal.days today with
  | some s => decide (s ≠ DayStatus.success)
  | none => false

/-- The event-triggered per-calendar congratulation (notifications.ts
lines 83-106): unless the guard blocks, a window-gated congratulation goes
to the matrix room of the user. -/
def sendCongratulation (cfg : SweepConfig) (u : User) (cal : Calendar) :
    List Notification :=
  if congratGuardBlocks cfg.today cal then []
  else
    match u.notifications with
    | none => []
    | some ns =>
      if cfg.matrixOn && ns.matrix.room_id != "" &&
          hour_between (ns.matrix.start_date.getD 0) (ns.matrix.end_date.getD 1440)
            cfg.now then
        [Notification.congratulation ns.matrix.room_id cal.name]
      else []

/-!
## Streak counter (spec-modelled)

The `countStreaks` implementation lives in the `Calendar` class and in
`utils.ts`, neither of which is among the provided sources; the walk is
modelled from the spec. Dates are embedded at day granularity as integers
(one unit per calendar day) with `weekdayOf` giving the agenda index, so
that walking back one day is subtraction by one.
-/

/-- The day-state store of the streak walk: day number to status. -/
abbrev IntDayMap := List (Int × DayStatus)

/-- Lookup in the integer-dated day map. -/
def lookupDay (m : IntDayMap) (d : Int) : Option DayStatus :=
  match m with
  | [] => none
  | (k, v) :: rest => if k = d then some v else lookupDay rest d

/-- The weekday index (0-6) of an integer day number. -/
def weekdayOf (d : Int) : Nat := (d % 7).toNat

/-- Whether the agenda expects a task on weekday index `i` (JS truthiness:
a missing entry is falsy). -/
def expects (agenda : List Bool) (i : Nat) : Bool := agenda.getD i false

/-- Modelled from the spec: the backward walk of `countStreaks`. On an
agenda-expected day the status must be success to continue (counting it);
fail, or an expected day with nothing recorded, terminates the walk; a
non-expected day is skipped without breaking the streak. `fuel` bounds the
number of days examined. -/
def streakWalk (agenda : List Bool) (days : IntDayMap) : Nat → Int → Nat
  | 0, _ => 0
  | Nat.succ fuel, d =>
    if expects agenda (weekdayOf d) then
      match lookupDay days d with
      | some DayStatus.success => streakWalk agenda days fuel (d - 1) + 1
      | _ => 0
    else streakWalk agenda days fuel (d - 1)

/-- The most recent recorded day not in the future. -/
def latestRecorded (days : IntDayMap) (today : Int) : Option Int :=
  days.foldl
    (fun acc p =>
      if p.1 ≤ today then
        match acc with
        | none => some p.1
        | some m => some (max m p.1)
      else acc)
    none

/-- The earliest recorded day, falling back to the given start. -/
def earliestRecorded (days : IntDayMap) (start : Int) : Int :=
  days.foldl (fun acc p => min acc p.1) start

/-- A calendar as the streak counter reads one: the weekly agenda and the
integer-dated day map. -/
structure StreakCalendar where
  agenda : List Bool
  days : IntDayMap
deriving DecidableEq, Repr

/-- Modelled from the spec: `countStreaks` starts from the most recent
recorded day not in the future and walks backward; the walk is given
enough fuel to reach the earliest recorded day, below which no success can
be found. -/
def countStreaks (c : StreakCalendar) (today : Int) : Nat :=
  match latestRecorded c.days today with
  | none => 0
  | some start =>
    streakWalk c.agenda c.days (start - earliestRecorded c.days start + 1).toNat start

/-!
## Claimed properties
-/

/-- C1: For every calendar and the current day of a reconciler run, if the
agenda does not mark the weekday of today as expected and the stored
status of today is absent or different from success, the breakday
reconciler sets the status of today to breakday; if the weekday is
agenda-expected, or the status of today is already success, the calendar
(and in particular its day-map entry for today) is left unchanged. -/
theorem breakday_reconciler_step_spec (today : String) (weekday : Nat) (c : Calendar) :
    (agendaAt c weekday = false → getDay c.days today ≠ some DayStatus.success →
      getDay (breakdayStep today weekday c).days today = some DayStatus.breakday) ∧
    (agendaAt c weekday = true ∨ getDay c.days today = some DayStatus.success →
      breakdayStep today weekday c = c) := by
  refine ⟨fun ha hs => ?_, fun h => ?_⟩
  · simp [breakdayStep, ha, hs, getDay_setDay_self]
  · rcases h with ha | hs
    · simp [breakdayStep, ha]
    · by_cases ha : agendaAt c weekday
      · simp [breakdayStep, ha]
      · simp [breakdayStep, ha, hs]

/-- A calendar on a non-agenda day with no recorded status for today. -/
def calC1a : Calendar :=
  { name := "stretching"
    agenda := [false, true, true, true, true, true, false]
    days := []
    notifications := none }

/-- A calendar already marked success for today on a non-agenda day. -/
def calC1b : Calendar :=
  { name := "running"
    agenda := [false, true, true, true, true, true, false]
    days := [("2026-10-11", DayStatus.success)]
    notifications := none }

/-- Witness for C1 at concrete inputs: the unrecorded non-agenda day gets
breakday, the success day is untouched. -/
theorem breakday_reconciler_step_spec_witness :
    getDay (breakdayStep "2026-10-11" 0 calC1a).days "2026-10-11" =
        some DayStatus.breakday ∧
    breakdayStep "2026-10-11" 0 calC1b = calC1b := by
  refine ⟨?_, ?_⟩
  · exact (breakday_reconciler_step_spec "2026-10-11" 0 calC1a).1 (by decide) (by decide)
  · exact (breakday_reconciler_step_spec "2026-10-11" 0 calC1b).2 (Or.inr (by decide))

/-- C2: For a fixed current day, running the breakday reconciler sweep
twice leaves the day-state store exactly as one run does, and no run ever
turns a day recorded as success into breakday (every success survives the
step). -/
theorem breakday_reconciler_idempotent (today : String) (weekday : Nat)
    (cs : List Calendar) :
    sweepBreakdays today weekday (sweepBreakdays today weekday cs) =
        sweepBreakdays today weekday cs ∧
    (∀ c ∈ cs, ∀ d, getDay c.days d = some DayStatus.success →
      getDay (breakdayStep today weekday c).days d = some DayStatus.success) := by
  constructor
  · unfold sweepBreakdays
    induction cs with
    | nil => rfl
    | cons hd tl ih =>
      simp only [List.map_cons, List.cons.injEq]
      exact ⟨breakdayStep_idem today weekday hd, ih⟩
  · intro c _ d hd
    unfold breakdayStep
    by_cases ha : agendaAt c weekday
    · simpa [ha] using hd
    · by_cases hs : getDay c.days today = some DayStatus.success
      · simpa [ha, hs] using hd
      · by_cases hdt : d = today
        · subst hdt
          exact absurd hd hs
        · simpa [ha, hs, getDay_setDay_other _ _ _ _ hdt] using hd

/-- A calendar with a recorded success on an earlier day and nothing for
today, on a non-agenda weekday. -/
def calC2 : Calendar :=
  { name := "reading"
    agenda := [false, true, true, true, true, true, true]
    days := [("2026-10-10", DayStatus.success)]
    notifications := none }

/-- Witness for C2 at a concrete store: the double sweep equals the single
sweep and the recorded success survives. -/
theorem breakday_reconciler_idempotent_witness :
    sweepBreakdays "2026-10-11" 0 (sweepBreakdays "2026-10-11" 0 [calC2]) =
        sweepBreakdays "2026-10-11" 0 [calC2] ∧
    getDay (breakdayStep "2026-10-11" 0 calC2).days "2026-10-10" =
        some DayStatus.success := by
  refine ⟨(breakday_reconciler_idempotent "2026-10-11" 0 [calC2]).1, ?_⟩
  exact (breakday_reconciler_idempotent "2026-10-11" 0 [calC2]).2 calC2 (by simp)
    "2026-10-10" (by decide)

theorem lookupDay_mem (m : IntDayMap) (d : Int) (v : DayStatus)
    (h : lookupDay m d = some v) : (d, v) ∈ m := by
  induction m with
  | nil => simp [lookupDay] at h
  | cons hd tl ih =>
    obtain ⟨k, w⟩ := hd
    by_cases hk : k = d
    · subst hk
      simp only [lookupDay, if_true, Option.some.injEq, eq_self_iff_true] at h
      exact h ▸ List.mem_cons_self _ _
    · simp only [lookupDay, if_neg hk] at h
      exact List.mem_cons_of_mem _ (ih h)

theorem streakWalk_eq_zero (agenda : List Bool) (days : IntDayMap)
    (hno : ∀ p ∈ days, p.2 ≠ DayStatus.success) :
    ∀ fuel d, streakWalk agenda days fuel d = 0 := by
  intro fuel
  induction fuel with
  | zero => intro d; rfl
  | succ n ih =>
    intro d
    by_cases ha : expects agenda (weekdayOf d)
    · cases hl : lookupDay days d with
      | none => simp [streakWalk, ha, hl]
      | some s =>
        cases s with
        | success => exact absurd rfl (hno (d, DayStatus.success) (lookupDay_mem _ _ _ hl))
        | fail => simp [streakWalk, ha, hl]
        | breakday => simp [streakWalk, ha, hl]
    · simp [streakWalk, ha, ih]

/-- C3: for every calendar whose day map contains no date recorded as
success, countStreaks returns 0. -/
theorem countStreaks_zero_of_no_success (c : StreakCalendar) (today : Int)
    (hno : ∀ p ∈ c.days, p.2 ≠ DayStatus.success) :
    countStreaks c today = 0 := by
  unfold countStreaks
  cases h : latestRecorded c.days today with
  | none => rfl
  | some start => exact streakWalk_eq_zero c.agenda c.days hno _ start

/-- A calendar with only fail and breakday records. -/
def scC3 : StreakCalendar :=
  { agenda := [true, true, true, true, true, true, true]
    days := [(738805, DayStatus.fail), (738804, DayStatus.breakday)] }

/-- Witness for C3 at a concrete store holding a fail and a breakday but
no success. -/
theorem countStreaks_zero_of_no_success_witness : countStreaks scC3 738805 = 0 :=
  countStreaks_zero_of_no_success scC3 738805 (by decide)

/-- C9: addCalendar always creates a calendar whose agenda marks all 7
weekdays as expected, whose day map is empty, and whose reminders and
congrats flags are both true. -/
theorem addCalendar_defaults (name : String) :
    (addCalendar name).agenda = List.replicate 7 true ∧
    (addCalendar name).days = [] ∧
    (addCalendar name).notifications = some { reminders := true, congrats := true } :=
  ⟨rfl, rfl, rfl⟩

/-- C10: the promise returned by the setBreakdays sweep never rejects:
each per-calendar update rejection is caught inside its own promise, and a
rejected calendar listing is caught by the outer handler, so the sweep
resolves for every combination of store outcomes. -/
theorem setBreakdays_never_rejects (today : String) (weekday : Nat)
    (listing : Except String (List Calendar)) (upd : Calendar → Except String Unit) :
    setBreakdaysResolution today weekday listing upd = Except.ok () ∧
    (∀ c u1, calendarSweepPromise today weekday c u1 = Except.ok ()) := by
  constructor
  · cases listing with
    | error e => rfl
    | ok cals => rfl
  · intro c u1
    unfold calendarSweepPromise
    by_cases ha : agendaAt c weekday
    · simp [ha]
    · by_cases hs : getDay c.days today = some DayStatus.success
      · simp [ha, hs]
      · cases u1 with
        | ok a => simp [ha, hs, promiseCatch]
        | error e => simp [ha, hs, promiseCatch]

/-- C8: in a dispatcher batch every send settles with its own outcome
before the batch is done (the batch promise always fulfills and records
exactly one settled outcome per send, so a single failure neither cancels
siblings nor fails the batch), and the disconnect event comes after every
settle event: it is the last event of the trace. -/
theorem dispatcher_settles_all (sends : List (Except String Unit)) :
    (batchPromise sends).isOk = true ∧
    (allSettled sends).length = sends.length ∧
    (∀ i (h : i < sends.length),
      (allSettled sends).get ⟨i, by simpa [allSettled] using h⟩ =
        settleOne (sends.get ⟨i, h⟩)) ∧
    (∀ i (h : i < sends.length),
      DispatchEvent.settled i (sends.get ⟨i, h⟩).isOk ∈ dispatchBatch true sends) ∧
    (dispatchBatch true sends).getLast? = some DispatchEvent.disconnected := by
  refine ⟨rfl, by simp [allSettled], fun i h => by simp [allSettled], fun i h => ?_, ?_⟩
  · unfold dispatchBatch
    apply List.mem_append_left
    have hlen : i < (sends.enum.map fun p => DispatchEvent.settled p.1 p.2.isOk).length := by
      simpa using h
    have hval : (sends.enum.map fun p => DispatchEvent.settled p.1 p.2.isOk).get ⟨i, hlen⟩ =
        DispatchEvent.settled i (sends.get ⟨i, h⟩).isOk := by
      simp [List.getElem_enum]
    exact hval ▸ List.get_mem _ _ hlen
  · unfold dispatchBatch
    simp only [if_true]
    exact List.getLast?_concat _

/-- Three sends, the second of which fails. -/
def sends3 : List (Except String Unit) :=
  [Except.ok (), Except.error "boom", Except.ok ()]

/-- Witness for C8 on the three-send batch whose second send fails: all
three settle, the failing one is recorded, the batch fulfills with two
successes and one failure, and the disconnect is the last event. -/
theorem dispatcher_settles_all_witness :
    (batchPromise sends3).isOk = true ∧
    DispatchEvent.settled 1 false ∈ dispatchBatch true sends3 ∧
    (dispatchBatch true sends3).getLast? = some DispatchEvent.disconnected ∧
    (allSettled sends3).count (Settled.fulfilled ()) = 2 ∧
    (allSettled sends3).count (Settled.rejected "boom") = 1 := by
  refine ⟨(dispatcher_settles_all sends3).1, ?_,
    (dispatcher_settles_all sends3).2.2.2.2, by decide, by decide⟩
  have hmem := (dispatcher_settles_all sends3).2.2.2.1 1 (by decide)
  simpa [sends3] using hmem

/-- A reminder-eligible calendar already recorded success for the fixed
run date. -/
def calPassToday : Calendar :=
  { name := "pushups"
    agenda := [true, true, true, true, true, true, true]
    days := [("2026-10-11", DayStatus.success)]
    notifications := some { reminders := true, congrats := true } }

/-- A reminder-eligible calendar with nothing recorded for the run date. -/
def calFailToday : Calendar :=
  { name := "situps"
    agenda := [true, true, true, true, true, true, true]
    days := []
    notifications := some { reminders := true, congrats := true } }

/-- Settings with a room and matrix channel but sent_today already true. -/
def nsSentC5 : UserNotifications :=
  { matrix := { room_id := "", start_date := none, end_date := none }
    streaks_done := { enabled := true, channel := "matrix", sent_today := true } }

/-- A user with one failing reminder-eligible calendar. -/
def userC5 : User := { notifications := some nsSentC5, calendars := [calFailToday] }

/-- A run with the notification service disabled. -/
def cfgOff : SweepConfig := { matrixOn := false, today := "2026-10-11", now := 600 }

/-- A run with the notification service connected, inside any default
window. -/
def cfgOn : SweepConfig := { matrixOn := true, today := "2026-10-11", now := 600 }

/-- C5: for every user with at least one reminder-eligible calendar whose
status for today is absent or fail, a sweep that finds sent_today true
resets it to false; the statement holds for every run configuration, in
particular when the service is disabled or no room is configured, so no
reminder is dispatched. -/
theorem failing_calendar_resets_sent_today (cfg : SweepConfig)
    (streakOf : Calendar → Nat) (u : User) (ns : UserNotifications)
    (hns : u.notifications = some ns)
    (hfail : (u.calendars.filter remindersOn).any (calFails cfg.today) = true)
    (hsent : ns.streaks_done.sent_today = true) :
    (processUser cfg streakOf u).1 = setSentToday u ns false := by
  simp [processUser, hns, hfail, hsent]

/-- Witness for C5: a disabled service and no room, sent_today true with a
failing calendar; the flag resets even though nothing is dispatched. -/
theorem failing_calendar_resets_sent_today_witness :
    (processUser cfgOff (fun _ => 0) userC5).1 = setSentToday userC5 nsSentC5 false ∧
    (processUser cfgOff (fun _ => 0) userC5).2 = [] := by
  refine ⟨failing_calendar_resets_sent_today cfgOff (fun _ => 0) userC5 nsSentC5 rfl
    (by decide) (by decide), by decide⟩

/-- C4 (amended): when additionally streaks_done.channel is the connected
matrix channel and a room is configured, a sweep over a user whose
reminder-eligible calendars are all passing fires the all-done
congratulation exactly once and sets sent_today true, and a second sweep
the same day with unchanged calendar state fires nothing. -/
theorem all_done_fires_once (cfg : SweepConfig) (streakOf : Calendar → Nat)
    (u : User) (ns : UserNotifications)
    (hns : u.notifications = some ns)
    (hpass : (u.calendars.filter remindersOn).any (calFails cfg.today) = false)
    (hen : ns.streaks_done.enabled = true)
    (hch : ns.streaks_done.channel = "matrix")
    (hsent : ns.streaks_done.sent_today = false)
    (hmx : cfg.matrixOn = true)
    (hroom : ns.matrix.room_id ≠ "") :
    (processUser cfg streakOf u).2 = [Notification.streaksDone ns.matrix.room_id] ∧
    (processUser cfg streakOf u).1 = setSentToday u ns true ∧
    (processUser cfg streakOf (processUser cfg streakOf u).1).2 = [] := by
  have hp : processUser cfg streakOf u =
      (setSentToday u ns true, [Notification.streaksDone ns.matrix.room_id]) := by
    simp [processUser, hns, hpass, hen, hch, hsent, hmx, bne_iff_ne, hroom]
  refine ⟨by rw [hp], by rw [hp], ?_⟩
  rw [hp]
  simp [processUser, setSentToday, hpass]

/-- Settings satisfying every premise of the claim except that the
streaks_done channel is the empty string. -/
def nsNoChannel : UserNotifications :=
  { matrix := { room_id := "!room:example.org", start_date := none, end_date := none }
    streaks_done := { enabled := true, channel := "", sent_today := false } }

/-- An all-passing user whose streaks_done channel is empty. -/
def userNoChannel : User :=
  { notifications := some nsNoChannel, calendars := [calPassToday] }

/-- C4 counterexample: the premises of the claim hold (every
reminder-eligible calendar passing today, streaks_done enabled, sent_today
false, connected service, configured room), yet the sweep fires nothing
and leaves the user unchanged with sent_today still false, because
streaks_done.channel is empty. -/
theorem all_done_claim_counterexample :
    ((userNoChannel.calendars.filter remindersOn).any (calFails cfgOn.today) = false ∧
      nsNoChannel.streaks_done.enabled = true ∧
      nsNoChannel.streaks_done.sent_today = false ∧
      cfgOn.matrixOn = true ∧
      nsNoChannel.matrix.room_id ≠ "") ∧
    (processUser cfgOn (fun _ => 0) userNoChannel).2 = [] ∧
    (processUser cfgOn (fun _ => 0) userNoChannel).1 = userNoChannel := by
  decide

/-- Settings whose streaks_done channel is matrix, with an 08:00-10:00
window. -/
def nsWindow : UserNotifications :=
  { matrix := { room_id := "!room:example.org", start_date := some 480, end_date := some 600 }
    streaks_done := { enabled := true, channel := "matrix", sent_today := false } }

/-- An all-passing user with the 08:00-10:00 window. -/
def userWindow : User := { notifications := some nsWindow, calendars := [calPassToday] }

/-- A run at 12:00, outside the 08:00-10:00 window. -/
def cfgNoon : SweepConfig := { matrixOn := true, today := "2026-10-11", now := 720 }

/-- Witness for C4 at concrete inputs: first sweep fires once and sets the
flag, second sweep fires nothing. -/
theorem all_done_fires_once_witness :
    (processUser cfgOn (fun _ => 0) userWindow).2 =
        [Notification.streaksDone "!room:example.org"] ∧
    (processUser cfgOn (fun _ => 0) userWindow).1 = setSentToday userWindow nsWindow true ∧
    (processUser cfgOn (fun _ => 0) (processUser cfgOn (fun _ => 0) userWindow).1).2 = [] :=
  all_done_fires_once cfgOn (fun _ => 0) userWindow nsWindow rfl (by decide) (by decide)
    (by decide) (by decide) (by decide) (by decide)

/-- Whether a batch of notifications contains no fail reminder. -/
def noReminderIn (l : List Notification) : Bool :=
  l.all fun n => !n.isReminder

/-- C6 (amended): outside the configured time window no fail reminder is
dispatched by the sweep and the event congratulation sends nothing; the
all-done congratulation however is not gated by the window and may still
be sent during such a run. -/
theorem window_gate_suppresses (cfg : SweepConfig) (streakOf : Calendar → Nat)
    (u : User) (ns : UserNotifications) (cal : Calendar)
    (hns : u.notifications = some ns)
    (hwin : hour_between (ns.matrix.start_date.getD 0) (ns.matrix.end_date.getD 1440)
      cfg.now = false) :
    noReminderIn (processUser cfg streakOf u).2 = true ∧
    sendCongratulation cfg u cal = [] := by
  constructor
  · by_cases hf : (u.calendars.filter remindersOn).any (calFails cfg.today)
    · simp [processUser, hns, hf, hwin, noReminderIn]
    · by_cases hc : ns.streaks_done.enabled && ns.streaks_done.channel != "" &&
          !ns.streaks_done.sent_today
      · by_cases hd : cfg.matrixOn && ns.streaks_done.channel == "matrix" &&
            ns.matrix.room_id != ""
        · simp [processUser, hns, hf, hc, hd, noReminderIn, Notification.isReminder]
        · simp [processUser, hns, hf, hc, hd, noReminderIn]
      · simp [processUser, hns, hf, hc, noReminderIn]
  · by_cases hg : congratGuardBlocks cfg.today cal
    · simp [sendCongratulation, hg]
    · simp [sendCongratulation, hg, hns, hwin]

/-- C6 counterexample: at 12:00, outside the 08:00-10:00 window of the
user, the sweep still fires the all-done congratulation, so the claim that
no all-done congratulation is sent outside the window fails. -/
theorem window_gate_claim_counterexample :
    hour_between (nsWindow.matrix.start_date.getD 0) (nsWindow.matrix.end_date.getD 1440)
        cfgNoon.now = false ∧
    (processUser cfgNoon (fun _ => 0) userWindow).2 =
      [Notification.streaksDone "!room:example.org"] := by
  decide

/-- Witness for C6 (amended) at concrete inputs outside the window. -/
theorem window_gate_suppresses_witness :
    noReminderIn (processUser cfgNoon (fun _ => 0) userWindow).2 = true ∧
    sendCongratulation cfgNoon userWindow calPassToday = [] :=
  window_gate_suppresses cfgNoon (fun _ => 0) userWindow nsWindow calPassToday rfl
    (by decide)

/-- C7 (amended): the event congratulation is suppressed exactly when the
recorded status of today is present and different from success; a
re-entrant call that finds the status already success is not suppressed
and sends again, subject to the service, room and window gates. -/
theorem congrat_guard_direction (cfg : SweepConfig) (u : User) (cal : Calendar) :
    (∀ st, getDay cal.days cfg.today = some st → st ≠ DayStatus.success →
      sendCongratulation cfg u cal = []) ∧
    (∀ ns, u.notifications = some ns →
      getDay cal.days cfg.today = some DayStatus.success →
      cfg.matrixOn = true → ns.matrix.room_id ≠ "" →
      hour_between (ns.matrix.start_date.getD 0) (ns.matrix.end_date.getD 1440)
        cfg.now = true →
      sendCongratulation cfg u cal =
        [Notification.congratulation ns.matrix.room_id cal.name]) := by
  constructor
  · intro st hst hne
    have hg : congratGuardBlocks cfg.today cal = true := by
      simp [congratGuardBlocks, hst, hne]
    simp [sendCongratulation, hg]
  · intro ns hns hst hmx hroom hwin
    have hg : congratGuardBlocks cfg.today cal = false := by
      simp [congratGuardBlocks, hst]
    simp [sendCongratulation, hg, hns, hmx, hroom, hwin, bne_iff_ne]

/-- A calendar already recorded fail for the run date. -/
def calFailedC7 : Calendar :=
  { name := "water"
    agenda := [true, true, true, true, true, true, true]
    days := [("2026-10-11", DayStatus.fail)]
    notifications := some { reminders := true, congrats := true } }

/-- C7 counterexample: the status of today is already success, yet the
(re-entrant) call sends the congratulation again instead of suppressing
it. -/
theorem congrat_resend_counterexample :
    getDay calPassToday.days cfgOn.today = some DayStatus.success ∧
    sendCongratulation cfgOn userNoChannel calPassToday =
      [Notification.congratulation "!room:example.org" "pushups"] ∧
    sendCongratulation cfgOn userNoChannel calPassToday ≠ [] := by
  decide

/-- Witness for C7 (amended): a fail status suppresses the send, a success
status sends. -/
theorem congrat_guard_direction_witness :
    sendCongratulation cfgOn userNoChannel calFailedC7 = [] ∧
    sendCongratulation cfgOn userNoChannel calPassToday =
      [Notification.congratulation "!room:example.org" "pushups"] := by
  refine ⟨(congrat_guard_direction cfgOn userNoChannel calFailedC7).1 DayStatus.fail
    (by decide) (by decide), ?_⟩
  exact (congrat_guard_direction cfgOn userNoChannel calPassToday).2 nsNoChannel rfl
    (by decide) rfl (by decide) (by decide)

end Streaks
